import Mathlib

/-!
Verification of the SISO geometry consolidation and tesselation engine.

Definitions are shallow embeddings of the Python source under `src/`:
`ifem_to_vt/reader.py`, `ifem_to_vt/reader/wrf.py`, `ifem_to_vt/writer/vtf.py`,
`siso/writer/writer.py` and `siso/writer/vtk.py`.  Components whose code is
not part of the sources (the `GeometryManager`, `structured_cells` and the
node maps of `util.py`, and spline evaluation, which the spec treats as an
external capability) are modelled from the specification and marked as such
in their doc comments.
-/

namespace SISO

/-! ## Tesselator: element construction

Embeds `Reader.write_geometry` (reader.py lines 151-173).  The cell-origin
grid is `product(*[range(k-1) for k in nodes.shape[:-1]])` and node indices
are flattened with `np.ravel_multi_index` in row-major (C) order.
-/

/-- Row-major flat index of grid point `(i, j)` in an `(n0, n1)` grid:
`np.ravel_multi_index((i, j), (n0, n1))`. -/
def rmi2 (n1 i j : Nat) : Nat := i * n1 + j

/-- Row-major flat index of grid point `(i, j, k)` in an `(n0, n1, n2)` grid. -/
def rmi3 (n1 n2 i j k : Nat) : Nat := (i * n1 + j) * n2 + k

/-- Cell origins for a 2D structured grid: `product(range(n0-1), range(n1-1))`,
with the first index varying slowest, as in the Python source. -/
def cellOrigins2 (n0 n1 : Nat) : List (Nat × Nat) :=
  (List.range (n0 - 1)).product (List.range (n1 - 1))

/-- Cell origins for a 3D structured grid. -/
def cellOrigins3 (n0 n1 n2 : Nat) : List (Nat × Nat × Nat) :=
  (List.range (n0 - 1)).product ((List.range (n1 - 1)).product (List.range (n2 - 1)))

/-- Element connectivity for parametric dimension 1: each cell is `(i, i+1)`
(reader.py lines 155-157). -/
def eidxs1 (n0 : Nat) : List (List Nat) :=
  (List.range (n0 - 1)).map (fun i => [i, i + 1])

/-- Element connectivity for parametric dimension 2: cell `(i, j)` becomes the
quad `(i,j), (i+1,j), (i+1,j+1), (i,j+1)` in row-major flat indices
(reader.py lines 158-163). -/
def eidxs2 (n0 n1 : Nat) : List (List Nat) :=
  (cellOrigins2 n0 n1).map (fun p =>
    [rmi2 n1 p.1 p.2, rmi2 n1 (p.1 + 1) p.2,
     rmi2 n1 (p.1 + 1) (p.2 + 1), rmi2 n1 p.1 (p.2 + 1)])

/-- Element connectivity for parametric dimension 3: cell `(i, j, k)` becomes
the 8-node hexahedron, bottom face then top face (reader.py lines 164-173). -/
def eidxs3 (n0 n1 n2 : Nat) : List (List Nat) :=
  (cellOrigins3 n0 n1 n2).map (fun p =>
    [rmi3 n1 n2 p.1 p.2.1 p.2.2, rmi3 n1 n2 (p.1 + 1) p.2.1 p.2.2,
     rmi3 n1 n2 (p.1 + 1) (p.2.1 + 1) p.2.2, rmi3 n1 n2 p.1 (p.2.1 + 1) p.2.2,
     rmi3 n1 n2 p.1 p.2.1 (p.2.2 + 1), rmi3 n1 n2 (p.1 + 1) p.2.1 (p.2.2 + 1),
     rmi3 n1 n2 (p.1 + 1) (p.2.1 + 1) (p.2.2 + 1), rmi3 n1 n2 p.1 (p.2.1 + 1) (p.2.2 + 1)])

/-- Modelled from the spec: spline evaluation is an external capability of the
patch object (splipy, out of scope); for a non-rational degree-1 patch with
identity coefficients, evaluating at a tensor grid of sample points returns
the grid points themselves, first parametric direction varying slowest. -/
def evalGrid2 (t0 t1 : List ℚ) : List (ℚ × ℚ) :=
  t0.flatMap (fun u => t1.map (fun v => (u, v)))

/-! ## GeometryManager and the VTF geometry-block store

The `GeometryManager` class itself (siso/geometry.py) is absent from the
sources; only its callers are present (`Writer.update_geometry` in
siso/writer/writer.py, `VTFWriter.update_geometry` in
ifem_to_vt/writer/vtf.py).  Its ID assignment is therefore modelled from the
spec.  The replacement of already-stored geometry blocks is embedded from
`VTFWriter.update_geometry` (vtf.py lines 99-115). -/

/-- Index of the first occurrence of `k` in a list of patch keys. -/
def lookupId : List Nat → Nat → Option Nat
  | [], _ => none
  | x :: xs, k => if x = k then some 0 else (lookupId xs k).map (· + 1)

/-- Modelled from the spec: the `GeometryManager` (siso/geometry.py, absent
from the sources) owns global patch numbering; its state is the list of patch
keys in first-discovery order, a key's global ID being its position. -/
structure GeometryManager where
  keys : List Nat
deriving DecidableEq

/-- Modelled from the spec: `GeometryManager.update` returns the existing
global ID of a known patch unchanged, and assigns the next unused ID
(= current count) to a newly discovered patch. -/
def GeometryManager.update (g : GeometryManager) (k : Nat) : Nat × GeometryManager :=
  match lookupId g.keys k with
  | some i => (i, g)
  | none => (g.keys.length, ⟨g.keys ++ [k]⟩)

/-- Modelled from the spec: `GeometryManager.global_id` of a patch. -/
def GeometryManager.globalId (g : GeometryManager) (k : Nat) : Nat := (g.update k).1

/-- Fold a sequence of patch discoveries through the geometry manager. -/
def runDiscoveries (g : GeometryManager) (ds : List Nat) : GeometryManager :=
  ds.foldl (fun g k => (g.update k).2) g

/-- Keys of a discovery sequence in first-occurrence order, starting from the
keys already seen. -/
def firstOccurrences (seen : List Nat) (ds : List Nat) : List Nat :=
  ds.foldl (fun acc k => if k ∈ acc then acc else acc ++ [k]) seen

/-- Embeds `VTFWriter.update_geometry` (vtf.py lines 99-115): if the patch ID
is beyond the stored blocks it must be the next one (`assert`, modelled as
`none`) and the block is appended; otherwise the block stored under that ID
is replaced in place. -/
def vtfStore {B : Type} (bs : List B) (pid : Nat) (b : B) : Option (List B) :=
  if bs.length ≤ pid then
    if bs.length = pid then some (bs ++ [b]) else none
  else
    some (bs.set pid b)

theorem lookupId_eq_none {l : List Nat} {k : Nat} :
    lookupId l k = none ↔ k ∉ l := by
  induction l with
  | nil => simp [lookupId]
  | cons x xs ih =>
    by_cases hx : x = k
    · subst hx; simp [lookupId]
    · simp [lookupId, hx, Option.map_eq_none', ih, Ne.symm hx]

theorem update_keys (g : GeometryManager) (k : Nat) :
    ((g.update k).2).keys = if k ∈ g.keys then g.keys else g.keys ++ [k] := by
  unfold GeometryManager.update
  rcases h : lookupId g.keys k with _ | i
  · rw [lookupId_eq_none] at h
    simp [h]
  · have hk : k ∈ g.keys := by
      by_contra hk
      rw [← lookupId_eq_none] at hk
      rw [h] at hk
      exact Option.noConfusion hk
    simp [hk]

theorem runDiscoveries_keys (ds : List Nat) :
    ∀ g : GeometryManager, (runDiscoveries g ds).keys = firstOccurrences g.keys ds := by
  induction ds with
  | nil => intro g; rfl
  | cons d ds ih =>
    intro g
    show (runDiscoveries (g.update d).2 ds).keys = _
    rw [ih, update_keys]
    rfl

theorem runDiscoveries_stable (ds : List Nat) :
    ∀ (g : GeometryManager) (i k : Nat), g.keys[i]? = some k →
      (runDiscoveries g ds).keys[i]? = some k := by
  induction ds with
  | nil => intro g i k h; exact h
  | cons d ds ih =>
    intro g i k h
    show (runDiscoveries (g.update d).2 ds).keys[i]? = some k
    apply ih
    rw [update_keys]
    by_cases hd : d ∈ g.keys
    · rw [if_pos hd]; exact h
    · have hi : i < g.keys.length := (List.getElem?_eq_some.mp h).1
      rw [if_neg hd, List.getElem?_append_left hi]
      exact h

theorem lookupId_get (l : List Nat) (hnd : l.Nodup) (i : Nat) (hi : i < l.length) :
    lookupId l (l.get ⟨i, hi⟩) = some i := by
  induction l generalizing i with
  | nil => simp at hi
  | cons x xs ih =>
    cases i with
    | zero => simp [lookupId]
    | succ j =>
      have hx : x ≠ xs.get ⟨j, Nat.lt_of_succ_lt_succ hi⟩ := by
        intro hcontra
        exact (List.nodup_cons.mp hnd).1 (hcontra ▸ xs.get_mem _ _)
      show lookupId (x :: xs) (xs.get ⟨j, _⟩) = some (j + 1)
      rw [lookupId, if_neg hx, ih (List.nodup_cons.mp hnd).2 j]
      rfl

theorem firstOccurrences_nodup (ds : List Nat) :
    ∀ seen : List Nat, seen.Nodup → (firstOccurrences seen ds).Nodup := by
  induction ds with
  | nil => intro seen h; exact h
  | cons d ds ih =>
    intro seen h
    show (firstOccurrences (if d ∈ seen then seen else seen ++ [d]) ds).Nodup
    apply ih
    by_cases hd : d ∈ seen
    · simpa [hd]
    · simp only [hd, if_false]
      exact h.append (List.nodup_singleton d)
        (by simpa [List.disjoint_singleton] using hd)

theorem lookupId_of_getElem {l : List Nat} (hnd : l.Nodup) {i k : Nat}
    (h : l[i]? = some k) : lookupId l k = some i := by
  obtain ⟨hi, hget⟩ := List.getElem?_eq_some.mp h
  have hcalc := lookupId_get l hnd i hi
  rw [List.get_eq_getElem, hget] at hcalc
  exact hcalc

theorem runDiscoveries_append (g : GeometryManager) (ds more : List Nat) :
    runDiscoveries g (ds ++ more) = runDiscoveries (runDiscoveries g ds) more := by
  unfold runDiscoveries
  exact List.foldl_append _ _ ds more

theorem runDiscoveries_nodup (ds : List Nat) :
    (runDiscoveries ⟨[]⟩ ds).keys.Nodup := by
  rw [runDiscoveries_keys]
  exact firstOccurrences_nodup ds [] List.nodup_nil

theorem lookupId_lt_length {l : List Nat} {k j : Nat}
    (h : lookupId l k = some j) : j < l.length := by
  induction l generalizing j with
  | nil => exact absurd h (by simp [lookupId])
  | cons x xs ih =>
    by_cases hx : x = k
    · rw [lookupId, if_pos hx] at h
      cases h
      simp
    · rw [lookupId, if_neg hx] at h
      rcases hj : lookupId xs k with _ | j'
      · rw [hj] at h; exact absurd h (by simp)
      · rw [hj] at h
        cases h
        simpa using Nat.succ_lt_succ (ih hj)

/-- C2: for every conversion run and every sequence of patch discoveries, the
global patch IDs form a contiguous range starting at 0 (the key list in
first-discovery order, an ID being a position in it); once a catalogue node
has an ID it is never reused or renumbered by later discoveries; and
re-emission of a patch replaces the geometry block stored under the same ID
instead of allocating a new one (vtf.py lines 99-115). -/
theorem global_id_invariants {B : Type} (ds more : List Nat) (i k pid : Nat)
    (bs : List B) (b : B) :
    (runDiscoveries ⟨[]⟩ ds).keys = firstOccurrences [] ds
    ∧ ((runDiscoveries ⟨[]⟩ ds).keys[i]? = some k →
        (runDiscoveries ⟨[]⟩ (ds ++ more)).keys[i]? = some k
        ∧ (runDiscoveries ⟨[]⟩ ds).globalId k = i
        ∧ (runDiscoveries ⟨[]⟩ (ds ++ more)).globalId k = i)
    ∧ (k ∈ (runDiscoveries ⟨[]⟩ ds).keys →
        (runDiscoveries ⟨[]⟩ ds).update k
          = ((runDiscoveries ⟨[]⟩ ds).globalId k, runDiscoveries ⟨[]⟩ ds)
        ∧ (runDiscoveries ⟨[]⟩ ds).globalId k < (runDiscoveries ⟨[]⟩ ds).keys.length)
    ∧ (pid < bs.length →
        vtfStore bs pid b = some (bs.set pid b) ∧ (bs.set pid b).length = bs.length)
    ∧ (pid = bs.length → vtfStore bs pid b = some (bs ++ [b])) := by
  refine ⟨runDiscoveries_keys ds ⟨[]⟩, ?_, ?_, ?_, ?_⟩
  · intro h
    have hext : (runDiscoveries ⟨[]⟩ (ds ++ more)).keys[i]? = some k := by
      rw [runDiscoveries_append]
      exact runDiscoveries_stable more _ i k h
    refine ⟨hext, ?_, ?_⟩
    · show ((runDiscoveries ⟨[]⟩ ds).update k).1 = i
      unfold GeometryManager.update
      rw [lookupId_of_getElem (runDiscoveries_nodup ds) h]
    · show ((runDiscoveries ⟨[]⟩ (ds ++ more)).update k).1 = i
      unfold GeometryManager.update
      rw [lookupId_of_getElem (runDiscoveries_nodup (ds ++ more)) hext]
  · intro hk
    have hnone : lookupId (runDiscoveries ⟨[]⟩ ds).keys k ≠ none := by
      intro hcon
      exact (lookupId_eq_none.mp hcon) hk
    rcases hsome : lookupId (runDiscoveries ⟨[]⟩ ds).keys k with _ | j
    · exact absurd hsome hnone
    · constructor
      · show (runDiscoveries ⟨[]⟩ ds).update k = _
        unfold GeometryManager.globalId GeometryManager.update
        rw [hsome]
      · show ((runDiscoveries ⟨[]⟩ ds).update k).1 < _
        unfold GeometryManager.update
        rw [hsome]
        exact lookupId_lt_length hsome
  · intro hpid
    refine ⟨?_, by rw [List.length_set]⟩
    unfold vtfStore
    rw [if_neg (Nat.not_le.mpr hpid)]
  · intro hpid
    unfold vtfStore
    rw [if_pos (Nat.le_of_eq hpid.symm), if_pos hpid.symm]

/-- C2 witness: the geometry-manager invariants evaluated on the discovery
sequence [7,7,3] extended by [3,9], and the block store [10,20]. -/
theorem global_id_invariants_wit :
    ((runDiscoveries ⟨[]⟩ ([7, 7, 3] ++ [3, 9])).keys[1]? = some 3
      ∧ (runDiscoveries ⟨[]⟩ [7, 7, 3]).globalId 3 = 1
      ∧ (runDiscoveries ⟨[]⟩ ([7, 7, 3] ++ [3, 9])).globalId 3 = 1)
    ∧ (runDiscoveries ⟨[]⟩ [7, 7, 3]).update 3
        = ((runDiscoveries ⟨[]⟩ [7, 7, 3]).globalId 3, runDiscoveries ⟨[]⟩ [7, 7, 3])
    ∧ vtfStore [10, 20] 0 30 = some [30, 20]
    ∧ ([10, 20].set 0 30).length = 2
    ∧ vtfStore [10, 20] 2 30 = some [10, 20, 30] := by
  refine ⟨?_, ?_, ?_, ?_, ?_⟩
  · exact (global_id_invariants [7, 7, 3] [3, 9] 1 3 0 ([10, 20] : List Nat) 30).2.1
      (by decide)
  · exact ((global_id_invariants [7, 7, 3] [3, 9] 1 3 0 ([10, 20] : List Nat) 30).2.2.1
      (by decide)).1
  · exact ((global_id_invariants [7, 7, 3] [3, 9] 1 3 0 ([10, 20] : List Nat) 30).2.2.2.1
      (by decide)).1
  · exact ((global_id_invariants [7, 7, 3] [3, 9] 1 3 0 ([10, 20] : List Nat) 30).2.2.2.1
      (by decide)).2
  · exact (global_id_invariants [7, 7, 3] [3, 9] 1 3 2 ([10, 20] : List Nat) 30).2.2.2.2 rfl

/-! ## Catalogue node state and the skip invariant

Embeds the per-node emission decision of `Reader.write_geometry`
(reader.py lines 136-148): the node's ad hoc attributes `last_written`,
`patchid` and `tesselation` are a fixed record with nullable fields. -/

/-- State of a catalogue node, as mutated by `Reader.write_geometry`. -/
structure CatNode where
  last_written : Int
  patchid : Option Nat
  tesselation : Option (List (List ℚ))
deriving DecidableEq

/-- Initial catalogue node state: `last_written = -1`, no patch ID, no
tesselation schedule (reader.py lines 137-140). -/
def initNode : CatNode := ⟨-1, none, none⟩

/-- One emission decision of `Reader.write_geometry` for one node at timestep
`lid` (reader.py lines 142-148): if `node.last_written >= lid` the patch is
skipped and the node untouched; otherwise `last_written` is set to `lid`, the
tesselation schedule is recorded, and the patch ID is kept if present or
freshly assigned by the writer.  Returns `true` when geometry was emitted. -/
def write_geometry_node (node : CatNode) (lid : Int) (knots : List (List ℚ))
    (freshid : Nat) : Bool × CatNode :=
  if lid ≤ node.last_written then (false, node)
  else
    (true,
      { last_written := lid,
        tesselation := some knots,
        patchid := some (node.patchid.getD freshid) })

/-- C3: after a node's geometry has been emitted at timestep `t`, a second
emission request at any timestep `t' ≤ t` is a skip: no geometry is emitted
and the node's stored state (last-emitted timestep, global patch ID,
tesselation schedule) is unchanged by the second call. -/
theorem maybe_emit_skip (node : CatNode) (t t' : Int)
    (ks ks' : List (List ℚ)) (id1 id2 : Nat)
    (hle : t' ≤ t) (hemit : (write_geometry_node node t ks id1).1 = true) :
    (write_geometry_node ((write_geometry_node node t ks id1).2) t' ks' id2).1 = false
    ∧ (write_geometry_node ((write_geometry_node node t ks id1).2) t' ks' id2).2
        = (write_geometry_node node t ks id1).2 := by
  unfold write_geometry_node at hemit ⊢
  by_cases h1 : t ≤ node.last_written
  · rw [if_pos h1] at hemit
    exact absurd hemit (by simp)
  · rw [if_neg h1]
    constructor <;> simp [hle]

/-- C3 witness: a fresh node emitted at timestep 5 skips a second request at
timestep 3, leaving its state unchanged. -/
theorem maybe_emit_skip_wit :
    (write_geometry_node ((write_geometry_node initNode 5 [[0, 1]] 0).2) 3 [[0, 1, 2]] 7).1
      = false
    ∧ (write_geometry_node ((write_geometry_node initNode 5 [[0, 1]] 0).2) 3 [[0, 1, 2]] 7).2
      = (write_geometry_node initNode 5 [[0, 1]] 0).2 :=
  maybe_emit_skip initNode 5 3 [[0, 1]] [[0, 1, 2]] 0 7 (by decide) (by decide)

/-- C1 counterexample: for the 2×2-sample 2D patch, the quad connectivity
produced by `Reader.write_geometry` under row-major flattening of the (2,2)
node grid with the per-cell rule (i,j),(i+1,j),(i+1,j+1),(i,j+1) is NOT
`[0,1,3,2]` as the claim states. -/
theorem tesselate_2x2_connectivity_not_0132 : eidxs2 2 2 ≠ [[0, 1, 3, 2]] := by
  decide

/-- C1 (amended): for a single 2×2-sample, 2D, non-rational patch with
identity coefficients and no field, tesselation returns exactly 4 nodes at
the 4 corners — in row-major order node 0=(0,0), 1=(0,1), 2=(1,0), 3=(1,1) —
and exactly 1 quad element whose connectivity is `[0,2,3,1]` under row-major
flattening of the (n0,n1) node grid, following the per-cell rule
(i,j),(i+1,j),(i+1,j+1),(i,j+1). -/
theorem tesselate_2x2_corners_and_quad :
    evalGrid2 [0, 1] [0, 1] = [(0, 0), (0, 1), (1, 0), (1, 1)]
    ∧ (evalGrid2 [0, 1] [0, 1]).length = 4
    ∧ eidxs2 2 2 = [[0, 2, 3, 1]]
    ∧ (eidxs2 2 2).length = 1 := by
  refine ⟨by decide, by decide, by decide, by decide⟩

/-- C6: for every structured tesselation of parametric dimension d ∈ {1,2,3}
with per-direction sample counts (n0,...,nd-1), each ≥ 2, the number of
elements equals the product of (ni - 1) over all directions. -/
theorem element_count_law (n0 n1 n2 : Nat)
    (h0 : 2 ≤ n0) (h1 : 2 ≤ n1) (h2 : 2 ≤ n2) :
    (eidxs1 n0).length = n0 - 1
    ∧ (eidxs2 n0 n1).length = (n0 - 1) * (n1 - 1)
    ∧ (eidxs3 n0 n1 n2).length = (n0 - 1) * ((n1 - 1) * (n2 - 1)) := by
  refine ⟨?_, ?_, ?_⟩
  · simp [eidxs1]
  · show ((cellOrigins2 n0 n1).map _).length = _
    rw [List.length_map]
    show ((List.range (n0 - 1)) ×ˢ (List.range (n1 - 1))).length = _
    rw [List.length_product, List.length_range, List.length_range]
  · show ((cellOrigins3 n0 n1 n2).map _).length = _
    rw [List.length_map]
    show ((List.range (n0 - 1)) ×ˢ ((List.range (n1 - 1)) ×ˢ (List.range (n2 - 1)))).length = _
    rw [List.length_product, List.length_product,
      List.length_range, List.length_range, List.length_range]

/-- C6 witness: the element count law evaluated at sample counts (3, 4, 5). -/
theorem element_count_law_wit :
    (eidxs1 3).length = 2
    ∧ (eidxs2 3 4).length = 2 * 3
    ∧ (eidxs3 3 4 5).length = 2 * (3 * 4) :=
  element_count_law 3 4 5 (by decide) (by decide) (by decide)

/-! ## Periodic planar mesh with poles

Embeds `WRFReader.periodic_planar_mesh` (wrf.py lines 233-263).  The helpers
`structured_cells` and `nodemap` live in ifem_to_vt/util.py, which is absent
from the sources; they are modelled from the spec below.  The four blocks and
their shapes are taken directly from wrf.py. -/

/-- Modelled from the spec: `structured_cells(shape, 2, nodemap)` of
ifem_to_vt/util.py (absent from the sources) produces one quad cell per
origin `(i, j)` of the per-direction cell-count shape, with the §4.1 winding
`(i,j), (i+1,j), (i+1,j+1), (i,j+1)`, node indices mapped through the given
node map. -/
def structured_cells2 (sh : Nat × Nat) (nodemap : Nat → Nat → Nat) : List (List Nat) :=
  ((List.range sh.1).product (List.range sh.2)).map (fun p =>
    [nodemap p.1 p.2, nodemap (p.1 + 1) p.2,
     nodemap (p.1 + 1) (p.2 + 1), nodemap p.1 (p.2 + 1)])

/-- Modelled from the spec: the default node map of the structured interior
mesh — row-major flat index over the `(nlat, nlon)` grid. -/
def baseNodemap (nlon : Nat) (i j : Nat) : Nat := i * nlon + j

/-- Modelled from the spec: `nodemap((nlat, 2), (nlon, nlon-1))` from wrf.py
line 245 — the seam block's map, whose column 0 is the first longitude index
and column 1 the last, joining the wrap boundary back to index 0. -/
def seamNodemap (nlon : Nat) (i j : Nat) : Nat := i * nlon + j * (nlon - 1)

/-- Modelled from the spec: the south-pole cap node map (wrf.py lines
250-252) — row 0 runs along the first latitude ring, periodic in longitude,
and row 1 is collapsed onto the single south-pole index `nlat * nlon`. -/
def southNodemap (nlat nlon : Nat) (i j : Nat) : Nat :=
  if i = 0 then j % nlon else nlat * nlon

/-- Modelled from the spec: the north-pole cap node map (wrf.py lines
256-259) — row 0 is collapsed onto the single north-pole index
`nlat * nlon + 1` and row 1 runs along the last latitude ring, periodic in
longitude. -/
def northNodemap (nlat nlon : Nat) (i j : Nat) : Nat :=
  if i = 0 then nlat * nlon + 1 else (nlat - 1) * nlon + j % nlon

/-- Embeds `WRFReader.periodic_planar_mesh` (wrf.py lines 233-263): interior
structured cells over `planar_shape = (nlat-1, nlon-1)`, then the periodic
seam block of shape `(nlat-1, 1)`, then the south-pole cap of shape
`(1, nlon)`, then the north-pole cap of shape `(1, nlon)`, appended in that
order. -/
def periodic_planar_mesh (nlat nlon : Nat) : List (List Nat) :=
  structured_cells2 (nlat - 1, nlon - 1) (baseNodemap nlon)
  ++ structured_cells2 (nlat - 1, 1) (seamNodemap nlon)
  ++ structured_cells2 (1, nlon) (southNodemap nlat nlon)
  ++ structured_cells2 (1, nlon) (northNodemap nlat nlon)

/-- C4: building the periodic planar mesh with poles for 3 latitude samples
and 4 longitude samples produces exactly 16 quad elements, composed in order
of (3-1)*(4-1)=6 interior quads, one seam block of 3-1=2 quads, and two
pole-cap blocks of 4 quads each (south pole then north pole). -/
theorem periodic_planar_mesh_3_4 :
    (structured_cells2 (2, 3) (baseNodemap 4)).length = 6
    ∧ (structured_cells2 (2, 1) (seamNodemap 4)).length = 2
    ∧ (structured_cells2 (1, 4) (southNodemap 3 4)).length = 4
    ∧ (structured_cells2 (1, 4) (northNodemap 3 4)).length = 4
    ∧ periodic_planar_mesh 3 4
        = structured_cells2 (2, 3) (baseNodemap 4)
          ++ structured_cells2 (2, 1) (seamNodemap 4)
          ++ structured_cells2 (1, 4) (southNodemap 3 4)
          ++ structured_cells2 (1, 4) (northNodemap 3 4)
    ∧ (periodic_planar_mesh 3 4).length = 16 := by
  refine ⟨by decide, by decide, by decide, by decide, by decide, by decide⟩

/-! ## Periodic node counts

Embeds the node-count behaviour of `WRFReader.variable_at` (wrf.py lines
107-151) and `WRFReader.patch_at` (wrf.py lines 178-231): a planar variable
is flattened to `nlat * nlon` entries and, when periodic, the two pole values
are appended; a volumetric variable keeps one row per vertical layer, with
the two pole values appended to every layer; `patch_at` sets
`nnodes = x.size` and multiplies by `nvertical` in the volumetric case. -/

/-- Planar branch of `variable_at` (wrf.py lines 134-143): flatten the
horizontal grid and, if `include_poles` and periodic, append the south and
north pole values. -/
def variable_at_planar (grid : List (List ℚ)) (south north : ℚ)
    (include_poles periodic : Bool) : List ℚ :=
  let data := grid.flatten
  if include_poles && periodic then data ++ [south, north] else data

/-- Volumetric branch of `variable_at` (wrf.py lines 134-143): each vertical
layer is flattened, and if `include_poles` and periodic, the layer's south
and north pole values are appended to it
(`np.append(data, np.array([south, north]).T, axis=-1)`). -/
def variable_at_volumetric (layers : List (List ℚ)) (south north : List ℚ)
    (include_poles periodic : Bool) : List (List ℚ) :=
  if include_poles && periodic then
    (layers.zip (south.zip north)).map (fun p => p.1 ++ [p.2.1, p.2.2])
  else layers

/-- Node count set by `patch_at` (wrf.py lines 192-203): `nnodes = x.size`
for the planar case, multiplied by `nvertical` for the volumetric case. -/
def patch_at_num_nodes (x : List ℚ) (nv : Nat) (planar : Bool) : Nat :=
  if planar then x.length else x.length * nv

theorem flatten_length_const {grid : List (List ℚ)} {c : Nat}
    (h : ∀ row ∈ grid, row.length = c) :
    grid.flatten.length = grid.length * c := by
  induction grid with
  | nil => simp
  | cons r rs ih =>
    have hr : r.length = c := h r (List.mem_cons_self r rs)
    have hrest := ih (fun row hrow => h row (List.mem_cons_of_mem r hrow))
    simp [hr, hrest, Nat.succ_mul, Nat.add_comm]

theorem volumetric_total_const {layers : List (List ℚ)} {south north : List ℚ} {c : Nat}
    (hlen : layers.length ≤ south.length) (hlen2 : layers.length ≤ north.length)
    (h : ∀ row ∈ layers, row.length = c) :
    (((variable_at_volumetric layers south north true true).map List.length).sum)
      = layers.length * (c + 2) := by
  unfold variable_at_volumetric
  simp only [Bool.and_self, if_pos]
  induction layers generalizing south north with
  | nil => simp
  | cons r rs ih =>
    cases south with
    | nil => simp at hlen
    | cons s ss =>
      cases north with
      | nil => simp at hlen2
      | cons n ns =>
        have hr : r.length = c := h r (List.mem_cons_self r rs)
        have hrest := ih (Nat.le_of_succ_le_succ hlen) (Nat.le_of_succ_le_succ hlen2)
          (fun row hrow => h row (List.mem_cons_of_mem r hrow))
        simp only [List.zip_cons_cons, List.map_cons, List.sum_cons, hrest,
          List.length_append, hr]
        simp [Nat.succ_mul, Nat.add_comm, Nat.add_assoc, Nat.add_left_comm]

/-- C5: for every periodic mesh with poles, the 2D planar node count is
`n0*n1 + 2` with the two pole nodes appended after the regular block, and the
3D volumetric node count is `nv*n0*n1 + 2*nv`, two pole nodes being appended
to every one of the `nv` vertical layers. -/
theorem periodic_node_count (nlat nlon nv : Nat) (grid : List (List ℚ))
    (layers : List (List ℚ)) (south north : ℚ) (vsouth vnorth : List ℚ)
    (hg : grid.length = nlat) (hrow : ∀ row ∈ grid, row.length = nlon)
    (hl : layers.length = nv) (hlrow : ∀ row ∈ layers, row.length = nlat * nlon)
    (hvs : vsouth.length = nv) (hvn : vnorth.length = nv) :
    (variable_at_planar grid south north true true).length = nlat * nlon + 2
    ∧ patch_at_num_nodes (variable_at_planar grid south north true true) nv true
        = nlat * nlon + 2
    ∧ patch_at_num_nodes (variable_at_planar grid south north true true) nv false
        = nv * (nlat * nlon) + 2 * nv
    ∧ ((variable_at_volumetric layers vsouth vnorth true true).map List.length).sum
        = nv * (nlat * nlon) + 2 * nv := by
  have hp : (variable_at_planar grid south north true true).length = nlat * nlon + 2 := by
    unfold variable_at_planar
    simp [flatten_length_const hrow, hg]
  refine ⟨hp, ?_, ?_, ?_⟩
  · simp [patch_at_num_nodes, hp]
  · simp only [patch_at_num_nodes, if_neg, Bool.false_eq_true, hp]
    simp only [if_false]
    ring
  · rw [volumetric_total_const (by rw [hl, hvs]) (by rw [hl, hvn]) hlrow, hl]
    ring

/-- C5 witness: the periodic node counts evaluated at a 2×2 horizontal grid
with 3 vertical layers. -/
theorem periodic_node_count_wit :
    (variable_at_planar [[1, 2], [3, 4]] 9 9 true true).length = 2 * 2 + 2
    ∧ patch_at_num_nodes (variable_at_planar [[1, 2], [3, 4]] 9 9 true true) 3 true
        = 2 * 2 + 2
    ∧ patch_at_num_nodes (variable_at_planar [[1, 2], [3, 4]] 9 9 true true) 3 false
        = 3 * (2 * 2) + 2 * 3
    ∧ ((variable_at_volumetric [[1, 2, 3, 4], [5, 6, 7, 8], [1, 1, 1, 1]]
          [9, 9, 9] [8, 8, 8] true true).map List.length).sum
        = 3 * (2 * 2) + 2 * 3 :=
  periodic_node_count 2 2 3 [[1, 2], [3, 4]]
    [[1, 2, 3, 4], [5, 6, 7, 8], [1, 1, 1, 1]] 9 9 [9, 9, 9] [8, 8, 8]
    (by decide) (by decide) (by decide) (by decide) (by decide) (by decide)

/-! ## Cell-valued field tesselation

Embeds `Reader._tesselate` with `cells=True` (reader.py lines 86-108): the
field's basis is collapsed to a degree-0 piecewise-constant basis and the
evaluation points become the midpoints of consecutive schedule points, so one
value per cell is produced. -/

/-- Midpoint substitution of `Reader._tesselate` (reader.py lines 93-96):
`[(a+b)/2 for a, b in zip(t[:-1], t[1:])]`. -/
def midpoints (t : List ℚ) : List ℚ :=
  (t.zip t.tail).map (fun p => (p.1 + p.2) / 2)

/-- The per-direction midpoint schedule used for cell-valued fields. -/
def cellTesselation (ts : List (List ℚ)) : List (List ℚ) := ts.map midpoints

/-- Modelled from the spec: evaluating a patch at a tensor grid of sample
points (splipy evaluation, an external capability) yields exactly one value
per grid point, so the value count is the product of the per-direction
sample counts. -/
def evalCount (ts : List (List ℚ)) : Nat := (ts.map List.length).prod

theorem midpoints_length (t : List ℚ) : (midpoints t).length = t.length - 1 := by
  unfold midpoints
  rw [List.length_map, List.length_zip, List.length_tail]
  exact Nat.min_eq_right (Nat.sub_le _ _)

/-- C7: for a field flagged cell-valued, tesselation evaluates at the
midpoints of consecutive schedule points in every direction, so the values
array has exactly one value per element: its length equals the element count
of the same patch's tesselation (shown for parametric dimensions 1, 2, 3)
and, at sample counts ≥ 2, differs from the node count. -/
theorem cell_values_count (t0 t1 t2 : List ℚ)
    (h0 : 2 ≤ t0.length) (h1 : 2 ≤ t1.length) :
    evalCount (cellTesselation [t0]) = (eidxs1 t0.length).length
    ∧ evalCount (cellTesselation [t0, t1]) = (eidxs2 t0.length t1.length).length
    ∧ evalCount (cellTesselation [t0, t1, t2])
        = (eidxs3 t0.length t1.length t2.length).length
    ∧ evalCount (cellTesselation [t0, t1]) ≠ evalCount [t0, t1] := by
  have e1 : (eidxs1 t0.length).length = t0.length - 1 := by simp [eidxs1]
  have e2 : (eidxs2 t0.length t1.length).length = (t0.length - 1) * (t1.length - 1) := by
    show ((cellOrigins2 t0.length t1.length).map _).length = _
    rw [List.length_map]
    show ((List.range (t0.length - 1)) ×ˢ (List.range (t1.length - 1))).length = _
    rw [List.length_product, List.length_range, List.length_range]
  have e3 : (eidxs3 t0.length t1.length t2.length).length
      = (t0.length - 1) * ((t1.length - 1) * (t2.length - 1)) := by
    show ((cellOrigins3 t0.length t1.length t2.length).map _).length = _
    rw [List.length_map]
    show ((List.range (t0.length - 1))
      ×ˢ ((List.range (t1.length - 1)) ×ˢ (List.range (t2.length - 1)))).length = _
    rw [List.length_product, List.length_product,
      List.length_range, List.length_range, List.length_range]
  refine ⟨?_, ?_, ?_, ?_⟩
  · simp [evalCount, cellTesselation, midpoints_length, e1]
  · simp [evalCount, cellTesselation, midpoints_length, e2]
  · simp [evalCount, cellTesselation, midpoints_length, e3, Nat.mul_assoc]
  · simp only [evalCount, cellTesselation, List.map_cons, List.map_nil,
      midpoints_length, List.prod_cons, List.prod_nil]
    have hlt : (t0.length - 1) * ((t1.length - 1) * 1) < t0.length * (t1.length * 1) := by
      have ha : t0.length - 1 < t0.length := Nat.sub_lt (by omega) Nat.one_pos
      have hb : (t1.length - 1) * 1 < t1.length * 1 := by
        simpa using Nat.sub_lt (by omega) Nat.one_pos
      exact Nat.mul_lt_mul_of_lt_of_lt ha hb
    exact Nat.ne_of_lt hlt

/-- C7 witness: the cell-value count law evaluated at schedules of lengths
3, 4 and 2. -/
theorem cell_values_count_wit :
    evalCount (cellTesselation [[0, 1, 2]]) = (eidxs1 3).length
    ∧ evalCount (cellTesselation [[0, 1, 2], [0, 1, 2, 3]]) = (eidxs2 3 4).length
    ∧ evalCount (cellTesselation [[0, 1, 2], [0, 1, 2, 3], [0, 1]])
        = (eidxs3 3 4 2).length
    ∧ evalCount (cellTesselation [[0, 1, 2], [0, 1, 2, 3]])
        ≠ evalCount [[0, 1, 2], [0, 1, 2, 3]] :=
  cell_values_count [0, 1, 2] [0, 1, 2, 3] [0, 1] (by decide) (by decide)

/-! ## Missing geometry at a timestep

Embeds `Reader.basis_level` (reader.py lines 192-198).  The error branch of
the source is `raise ValueError('Geometry for basis {} unavailable at
timestep {}'.format(basis, index))`, but the name `index` is not defined in
that scope, so evaluating the format arguments raises a `NameError` before
any `ValueError` carrying the timestep can be constructed. -/

/-- A Python-level error: either an undefined-name crash or a constructed
error with a message. -/
inductive PyErr where
  | nameErr (undefined : String)
  | valueErr (msg : String)
deriving DecidableEq

/-- Embeds `Reader.basis_level`: finds the last basis update at or before the
requested level (`next(l for l in basis.updates[::-1] if l <= level)`); on
exhaustion the source attempts to raise a `ValueError` but crashes with
`NameError` because the format argument `index` is undefined. -/
def basis_level (updates : List Nat) (level : Nat) : Except PyErr Nat :=
  match updates.reverse.find? (fun l => decide (l ≤ level)) with
  | some l => .ok l
  | none => .error (.nameErr "index")

/-- C8 (code bug): for a basis whose only geometry update is at timestep 5,
requesting timestep 3 makes `basis_level` fail — but with a `NameError` on
the undefined variable `index`, not a `ConfigurationError`-class report
containing the requested timestep and basis name as the claim (and the
source's own format string) intend. -/
theorem basis_level_name_error :
    basis_level [5] 3 = .error (.nameErr "index")
    ∧ (∀ msg : String, basis_level [5] 3 ≠ .error (.valueErr msg))
    ∧ basis_level [2, 5] 3 = .ok 2 := by
  refine ⟨rfl, fun msg => by simp [basis_level], rfl⟩

/-! ## Writer protocol state machine

Embeds the ordering guards of `siso/writer/writer.py`: `Writer.step` (lines
81-93) asserts that the previous step was finalized before opening a new one,
and `Writer.field` (lines 101-104) asserts that geometry was finalized before
accepting field updates.  A failed `assert` is the fatal protocol violation
of the spec. -/

/-- Writer protocol state (siso/writer/writer.py lines 71-76). -/
structure WriterState where
  stepid : Int
  step_finalized : Bool
  geometry_finalized : Bool
deriving DecidableEq

/-- Fatal protocol violation (a failed `assert` in the source). -/
inductive ProtoErr where
  | protocolViolation
deriving DecidableEq

/-- State after `Writer.__enter__`: `stepid = -1`, both flags finalized. -/
def writerInit : WriterState := ⟨-1, true, true⟩

/-- Embeds entering `Writer.step` (writer.py lines 82-87): asserts the
previous step is finalized, then increments the step counter and marks step
and geometry unfinalized. -/
def step_enter (s : WriterState) : Except ProtoErr WriterState :=
  if s.step_finalized then
    .ok { stepid := s.stepid + 1, step_finalized := false, geometry_finalized := false }
  else .error .protocolViolation

/-- Embeds leaving `Writer.step` (writer.py lines 91-93): asserts geometry is
finalized and the step not yet finalized, then finalizes the step. -/
def step_exit (s : WriterState) : Except ProtoErr WriterState :=
  if s.geometry_finalized && !s.step_finalized then
    .ok { s with step_finalized := true }
  else .error .protocolViolation

/-- Embeds leaving `Writer.geometry` (writer.py line 99). -/
def geometry_exit (s : WriterState) : WriterState :=
  { s with geometry_finalized := true }

/-- Embeds entering `Writer.field` (writer.py lines 102-104): asserts
geometry has been finalized. -/
def field_enter (s : WriterState) : Except ProtoErr WriterState :=
  if s.geometry_finalized then .ok s else .error .protocolViolation

/-- Embeds the guard of `Writer.update_geometry` (writer.py line 111):
asserts geometry is not yet finalized. -/
def update_geometry_guard (s : WriterState) : Except ProtoErr WriterState :=
  if s.geometry_finalized then .error .protocolViolation else .ok s

/-- C9: the writer never accepts a field update before geometry has been
finalized for the current step, and never accepts opening a new step while
the previous step is unfinalized; each such out-of-order call signals a fatal
protocol violation instead of being silently accepted. -/
theorem writer_protocol_guards (s : WriterState) :
    (s.geometry_finalized = false → field_enter s = .error .protocolViolation)
    ∧ (s.step_finalized = false → step_enter s = .error .protocolViolation)
    ∧ (∀ s', step_enter s = .ok s' →
        field_enter s' = .error .protocolViolation
        ∧ s'.geometry_finalized = false ∧ s'.step_finalized = false)
    ∧ (s.geometry_finalized = true → field_enter s = .ok s) := by
  refine ⟨?_, ?_, ?_, ?_⟩
  · intro h
    simp [field_enter, h]
  · intro h
    simp [step_enter, h]
  · intro s' h
    unfold step_enter at h
    by_cases hs : s.step_finalized
    · rw [if_pos hs] at h
      cases h
      exact ⟨by simp [field_enter], rfl, rfl⟩
    · rw [if_neg hs] at h
      exact Except.noConfusion h
  · intro h
    simp [field_enter, h]

/-- C9 witness: from the initial writer state, a freshly opened step rejects
field updates until geometry is finalized, and an unfinalized step rejects
opening the next step. -/
theorem writer_protocol_guards_wit :
    field_enter ⟨0, false, false⟩ = .error .protocolViolation
    ∧ step_enter ⟨0, false, false⟩ = .error .protocolViolation
    ∧ field_enter (geometry_exit ⟨0, false, false⟩) = .ok (geometry_exit ⟨0, false, false⟩) :=
  ⟨(writer_protocol_guards ⟨0, false, false⟩).1 rfl,
   (writer_protocol_guards ⟨0, false, false⟩).2.1 rfl,
   (writer_protocol_guards (geometry_exit ⟨0, false, false⟩)).2.2.2 rfl⟩

/-! ## NaN filtering in the VTK family of writers

Embeds `VTKWriter.nan_filter` (siso/writer/vtk.py lines 47-52) and
`VTUWriter.nan_filter` (lines 155-156); `PVDWriter` extends `VTUWriter`
without overriding it.  A field value is either NaN or an ordinary number. -/

/-- A field value: NaN or an ordinary number. -/
inductive FVal where
  | nan
  | num (q : ℚ)
deriving DecidableEq

/-- Test for NaN (`np.isnan`). -/
def isNanV : FVal → Bool
  | .nan => true
  | .num _ => false

/-- Replacement of a NaN entry by 0.0 (`data[I, J] = 0.0`). -/
def zeroNan : FVal → FVal
  | .nan => .num 0
  | .num q => .num q

/-- Output mode of the writer configuration. -/
inductive OutputMode where
  | ascii
  | binary
  | appended
deriving DecidableEq

/-- Embeds `VTKWriter.nan_filter` (vtk.py lines 47-52): if any entry is NaN
and the output mode is ascii, every NaN entry is set to 0.0 (with a warning);
otherwise the data is returned unchanged. -/
def vtk_nan_filter (mode : OutputMode) (data : List FVal) : List FVal :=
  if data.any isNanV && (mode == OutputMode.ascii) then data.map zeroNan
  else data

/-- Embeds `VTUWriter.nan_filter` (vtk.py lines 155-156): the data is
returned unchanged in every output mode.  `PVDWriter` inherits this. -/
def vtu_nan_filter (mode : OutputMode) (data : List FVal) : List FVal :=
  match mode with
  | _ => data

/-- `PVDWriter` does not override `nan_filter`; it uses `VTUWriter`'s. -/
def pvd_nan_filter (mode : OutputMode) (data : List FVal) : List FVal :=
  vtu_nan_filter mode data

theorem map_zeroNan_of_no_nan (data : List FVal) (h : data.any isNanV = false) :
    data.map zeroNan = data := by
  induction data with
  | nil => rfl
  | cons v vs ih =>
    rw [List.any_cons, Bool.or_eq_false_iff] at h
    cases v with
    | nan => exact absurd h.1 (by simp [isNanV])
    | num q => simp [zeroNan, ih h.2]

/-- C10: while the output mode is ascii, the VTK writer replaces every NaN
entry by 0.0 before writing; in binary (and appended) mode, and for the VTU
and PVD writers in every output mode, the field data is passed through
unchanged, NaNs included. -/
theorem nan_filter_behaviour (mode : OutputMode) (data : List FVal) :
    vtk_nan_filter OutputMode.ascii data = data.map zeroNan
    ∧ vtk_nan_filter OutputMode.binary data = data
    ∧ vtk_nan_filter OutputMode.appended data = data
    ∧ vtu_nan_filter mode data = data
    ∧ pvd_nan_filter mode data = data := by
  refine ⟨?_, ?_, ?_, rfl, rfl⟩
  · unfold vtk_nan_filter
    rcases h : data.any isNanV with _ | _
    · simp only [Bool.false_and, if_false]
      exact (map_zeroNan_of_no_nan data h).symm
    · simp
  · simp [vtk_nan_filter]
  · simp [vtk_nan_filter]

end SISO
